import Mathlib

/-!
Verification development for the SillyTavern-Interactive-Map extension
(src/index.js). The JavaScript source is shallowly embedded: JSON-like
runtime values become the inductive type `JsVal`, the stateful pieces
(document cache, media overlay singletons) become explicit state records
with pure transition functions, and code that can throw is modelled with
`Except`. Network effects are parameterized by an oracle describing the
outcome of each fetch.
-/

namespace IMap

/-- JSON-like JavaScript runtime values, as they occur in map documents and
listing files (plus `undefined`, which arises from missing-property access).
Numbers are modelled as rationals: the numeric literals appearing in map
documents are decimal, and the checks performed on them (finiteness,
positivity) are order comparisons. -/
inductive JsVal where
  | str (s : String)
  | num (q : ℚ)
  | bool (b : Bool)
  | null
  | undefined
  | arr (elems : List JsVal)
  | obj (fields : List (String × JsVal))

/-- JavaScript truthiness. -/
def truthy : JsVal → Bool
  | .str s => !(s == "")
  | .num q => !(q == 0)
  | .bool b => b
  | .null => false
  | .undefined => false
  | .arr _ => true
  | .obj _ => true

/-- The `typeof` operator, restricted to the values of `JsVal`. -/
def jsTypeof : JsVal → String
  | .str _ => "string"
  | .num _ => "number"
  | .bool _ => "boolean"
  | .null => "object"
  | .undefined => "undefined"
  | .arr _ => "object"
  | .obj _ => "object"

/-- Property access `v[k]` for the fields the source reads: lookup in an
object, `undefined` on everything else (the source never reads a computed
property such as `length` through this helper). -/
def getField : JsVal → String → JsVal
  | .obj fs, k => (((fs.find? (fun p => p.1 == k)).map (fun p => p.2)).getD .undefined)
  | _, _ => .undefined

/-- JavaScript `String.prototype.toLowerCase`, as a character-list map (the
strings involved are ASCII). -/
def jsToLower (s : String) : String := String.mk (s.data.map Char.toLower)

/-- JavaScript `String.prototype.trim`: strip leading and trailing
whitespace. -/
def jsTrim (s : String) : String :=
  String.mk (((s.data.dropWhile Char.isWhitespace).reverse.dropWhile
    Char.isWhitespace).reverse)

/-- Optional chaining `v?.k`: `undefined` when `v` is `null`/`undefined`,
plain access otherwise. -/
def jsOptChain (v : JsVal) (k : String) : JsVal :=
  match v with
  | .null => .undefined
  | .undefined => .undefined
  | w => getField w k

/-- `Number(v)` coercion, returning `none` for NaN. String parsing covers the
plain decimal forms that occur in map documents (optional sign, digits,
optional fractional digits); exotic numeric strings (hex, exponents,
Infinity) are outside the embedding and coerce to NaN here. -/
def parseDecimalDigits : List Char → Option (ℕ × ℕ)
  | [] => none
  | c :: rest =>
    if c.isDigit then
      match parseDecimalDigits rest with
      | some (v, n) => some ((c.toNat - 48) * 10 ^ n + v, n + 1)
      | none => if rest.isEmpty then some (c.toNat - 48, 1) else none
    else none

def parseDecimalString (s : String) : Option ℚ :=
  let t := (jsTrim s).data
  let (sign, digits) :=
    match t with
    | '-' :: rest => ((-1 : ℚ), rest)
    | '+' :: rest => ((1 : ℚ), rest)
    | rest => ((1 : ℚ), rest)
  match digits.splitOn '.' with
  | [whole] =>
    match parseDecimalDigits whole with
    | some (v, _) => some (sign * v)
    | none => none
  | [whole, frac] =>
    match parseDecimalDigits whole, parseDecimalDigits frac with
    | some (w, _), some (f, n) => some (sign * (w + (f : ℚ) / 10 ^ n))
    | _, _ => none
  | _ => none

def jsToNumber : JsVal → Option ℚ
  | .num q => some q
  | .str s => if jsTrim s == "" then some 0 else parseDecimalString s
  | .bool b => some (if b then 1 else 0)
  | .null => some 0
  | .undefined => none
  | .arr [] => some 0
  | .arr (_ :: _) => none
  | .obj _ => none

/-- Decimal rendering of the rationals that occur where the source formats a
number into a string. Integers render exactly as JavaScript does; a
non-integral rational is rendered as a fraction (such a value never matches
the color pattern and never influences a claim). -/
def ratToJsString (q : ℚ) : String :=
  if q.den = 1 then toString q.num else toString q.num ++ "/" ++ toString q.den

/-- One element of an array under `Array.prototype.toString`: `null` and
`undefined` render empty. A nested non-empty array would recurse in
JavaScript; no value the source stringifies nests arrays, so the embedding
keeps one level and renders a nested array empty. -/
def jsArrElemToString : JsVal → String
  | .str s => s
  | .num q => ratToJsString q
  | .bool b => if b then "true" else "false"
  | .null => ""
  | .undefined => ""
  | .obj _ => "[object Object]"
  | .arr _ => ""

/-- `String(v)` coercion. -/
def jsToString : JsVal → String
  | .str s => s
  | .num q => ratToJsString q
  | .bool b => if b then "true" else "false"
  | .null => "null"
  | .undefined => "undefined"
  | .obj _ => "[object Object]"
  | .arr elems => String.intercalate "," (elems.map jsArrElemToString)

/-- Boolean substring containment on character lists. -/
def listInfix (sub : List Char) : List Char → Bool
  | [] => sub.isEmpty
  | c :: rest => sub.isPrefixOf (c :: rest) || listInfix sub rest

/-- JavaScript `String.prototype.includes` (substring containment). -/
def jsIncludes (s sub : String) : Bool := listInfix sub.data s.data

/-- JavaScript `String.prototype.startsWith`. -/
def jsStartsWith (s pre : String) : Bool := pre.data.isPrefixOf s.data

/-- JavaScript `String.prototype.endsWith`. -/
def jsEndsWith (s suf : String) : Bool := suf.data.isSuffixOf s.data

-- ===== CONFIGURATION (src/index.js lines 22-44) =====

def extensionName : String := "SillyTavern-Interactive Map"

def extensionFolderPath : String := "scripts/extensions/third-party/" ++ extensionName

def DEFAULT_MAP : String := "SillyTavern.json"

structure MapSettings where
  hoverOpacity : ℚ
  transitionDuration : ℕ
  enableTooltips : Bool
  debugMode : Bool
  maxMapCache : ℕ
  fetchTimeout : ℕ
  indexTimeout : ℕ
  defaultMap : String

def mapSettings : MapSettings :=
  { hoverOpacity := 3 / 10
  , transitionDuration := 200
  , enableTooltips := true
  , debugMode := false
  , maxMapCache := 10
  , fetchTimeout := 10000
  , indexTimeout := 3000
  , defaultMap := DEFAULT_MAP }

-- ===== VALIDATION (src/index.js lines 61-143) =====

structure ValidationResult where
  valid : Bool
  errors : List String
deriving Repr, DecidableEq

def isHexDig (c : Char) : Bool :=
  c.isDigit || ('a' ≤ c && c ≤ 'f') || ('A' ≤ c && c ≤ 'F')

/-- The test of the regular expression of `isValidColor` on a string. -/
def colorPatternTest (s : String) : Bool :=
  match s.data with
  | '#' :: rest => (rest.length == 6 || rest.length == 3) && rest.all isHexDig
  | _ => false

/-- `isValidColor(color)` (line 141): the regular expression test coerces its
argument to a string first. -/
def isValidColor (color : JsVal) : Bool :=
  colorPatternTest (jsToString color)

/-- `validateShape(shape, index, errors)` (lines 115-139), returning the
errors it pushes, in order. -/
def validateShape (shape : JsVal) (index : ℕ) : List String :=
  if !(truthy shape) || !(jsTypeof shape == "object") then
    ["Shape[" ++ toString index ++ "]: must be an object"]
  else
    let pfx := "Shape[" ++ toString index ++ "]"
    (if !(truthy (getField shape "id")) || !(truthy (getField shape "path")) ||
        !(truthy (getField shape "color")) || !(truthy (getField shape "script")) then
      [pfx ++ ": missing required fields (id, path, color, script)"] else [])
    ++ (if !(jsTypeof (getField shape "script") == "string") then
      [pfx ++ ".script: must be a string"] else [])
    ++ (if !(jsTypeof (getField shape "path") == "string") then
      [pfx ++ ".path: must be a string"] else [])
    ++ (if !(isValidColor (getField shape "color")) then
      [pfx ++ ".color: invalid color \"" ++ jsToString (getField shape "color") ++ "\""] else [])

/-- The `forEach` loop of `validateMapData` over the shapes array, starting
at a given index. -/
def validateShapes (shapes : List JsVal) (start : ℕ) : List String :=
  match shapes with
  | [] => []
  | s :: rest => validateShape s start ++ validateShapes rest (start + 1)

/-- Is an `Option ℚ` (a possibly-NaN JavaScript number) finite? -/
def jsIsFinite (o : Option ℚ) : Bool := o.isSome

/-- The comparison `x <= 0` on a possibly-NaN number (NaN compares false). -/
def jsLeZero (o : Option ℚ) : Bool :=
  match o with
  | some q => decide (q ≤ 0)
  | none => false

/-- `validateMapData(data)` (lines 61-107). -/
def validateMapData (data : JsVal) : ValidationResult :=
  if !(truthy data) || !(jsTypeof data == "object") then
    { valid := false, errors := ["Map data must be an object"] }
  else
    let bg := getField data "backgroundImage"
    let bgErr :=
      if !(truthy bg) || !(jsTypeof (getField bg "file") == "string") then
        ["backgroundImage.file: required and must be a string"] else []
    let width := jsToNumber (jsOptChain bg "width")
    let height := jsToNumber (jsOptChain bg "height")
    let dimErr :=
      if !(jsIsFinite width) || !(jsIsFinite height) || jsLeZero width || jsLeZero height then
        ["backgroundImage.width/height: must be positive numbers"] else []
    let shapesErr :=
      match getField data "shapes" with
      | .arr shapes =>
        if shapes.length == 0 then ["shapes: must be non-empty array"]
        else validateShapes shapes 0
      | _ => ["shapes: must be non-empty array"]
    let errors := bgErr ++ dimErr ++ shapesErr
    { valid := errors.isEmpty, errors := errors }

-- ===== PATH TRAVERSAL PROTECTION (src/index.js lines 152-171) =====

/-- The argument of `validateAssetPath`: a string, or any non-string value
(every non-string is rejected by the same first guard, so one constructor
covers them all). -/
inductive JsInput where
  | str (s : String)
  | nonString
deriving Repr, DecidableEq

/-- Does a string match the regular expression of line 166 (a leading ASCII
letter followed by a colon)? -/
def driveLetterTest (s : String) : Bool :=
  match s.data with
  | c₁ :: c₂ :: _ => c₁.isAlpha && c₂ == ':'
  | _ => false

/-- `validateAssetPath(filePath)` (lines 152-171). A thrown `Error` becomes
`Except.error` carrying the message. -/
def validateAssetPath : JsInput → Except String Bool
  | .nonString => .error "Path must be a string"
  | .str s =>
    if s == "" then .error "Path must be a string"
    else if jsIncludes s ".." || jsStartsWith s "/" || jsStartsWith s "\\" ||
        jsIncludes s "\\\\" then
      .error ("Invalid file path: " ++ s)
    else if driveLetterTest s then .error ("Absolute paths forbidden: " ++ s)
    else .ok true

/-- Modelled from the wording of the specification (section 4.1 and the
first testable property): the set of inputs on which `validate` is said to
fail — empty, not a string, contains `..`, starts with `/` or a backslash,
contains a doubled backslash, or matches the drive-letter pattern. Used only
to compare the specified failure set against the source function. -/
def specInvalidPath : JsInput → Bool
  | .nonString => true
  | .str s =>
    (s == "") || jsIncludes s ".." || jsStartsWith s "/" || jsStartsWith s "\\" ||
      jsIncludes s "\\\\" || driveLetterTest s

-- ===== MAP LOADING (src/index.js lines 177-314) =====

/-- Insertion-ordered map used as the model of the JavaScript `Map` behind
`mapCache`: an association list in insertion order. -/
abbrev MapCache : Type := List (String × JsVal)

/-- `Map.prototype.get` combined with the preceding `has` check: the value
under a key, if present. -/
def jsMapGet (c : MapCache) (k : String) : Option JsVal :=
  ((c.find? (fun p => p.1 == k)).map (fun p => p.2))

/-- `Map.prototype.set`: replace in place when the key exists, else append
(JavaScript `Map` keeps the original insertion position on overwrite). -/
def jsMapSet (c : MapCache) (k : String) (v : JsVal) : MapCache :=
  match c with
  | [] => [(k, v)]
  | (k', v') :: rest => if k' == k then (k, v) :: rest else (k', v') :: jsMapSet rest k v

/-- `Map.prototype.delete`: remove the first entry under a key. -/
def jsMapDelete (c : MapCache) (k : String) : MapCache :=
  match c with
  | [] => []
  | (k', v') :: rest => if k' == k then rest else (k', v') :: jsMapDelete rest k

/-- The outcome of one `fetch` + `response.json()` round trip, as seen
through `fetchJsonWithTimeout` (lines 177-211): the abort timer fired, the
network failed, the response was not ok, the body failed to parse, or a
decoded value came back. -/
inductive FetchOutcome where
  | timeout
  | netFail (msg : String)
  | httpError (status : ℕ) (statusText : String)
  | parseError (msg : String)
  | success (data : JsVal)

/-- The mutable module state that `loadMapData` touches: the document cache
and `extensionState.lastError`. -/
structure LoadState where
  cache : MapCache
  lastError : Option String

def initialLoadState : LoadState := { cache := [], lastError := none }

/-- The URL `loadMapData` fetches for a map name. -/
def mapUrl (mapName : String) : String := extensionFolderPath ++ "/" ++ mapName

/-- `loadMapData(mapName)` (lines 280-314) against a fetch oracle giving the
outcome of the single network request it may make. Returns the result (the
document, or the thrown message) together with the state after the call; on
any throw the catch block records the error in `lastError` and rethrows. -/
def loadMapData (fetch : String → FetchOutcome) (st : LoadState) (mapName : String) :
    Except String JsVal × LoadState :=
  match jsMapGet st.cache mapName with
  | some d => (.ok d, st)
  | none =>
    let fail : String → Except String JsVal × LoadState := fun e =>
      (.error e, { st with lastError := some e })
    match validateAssetPath (.str mapName) with
    | .error e => fail e
    | .ok _ =>
      match fetch (mapUrl mapName) with
      | .timeout => fail ("Timeout loading map: " ++ mapName)
      | .netFail m => fail m
      | .httpError status statusText =>
        fail ("HTTP " ++ toString status ++ ": " ++ statusText)
      | .parseError m => fail ("JSON parse error: " ++ m)
      | .success data =>
        let validation := validateMapData data
        if !validation.valid then
          fail ("Validation error: " ++ String.intercalate "; " validation.errors)
        else
          let cache₁ :=
            if st.cache.length ≥ mapSettings.maxMapCache then
              match st.cache.head? with
              | some kv => jsMapDelete st.cache kv.1
              | none => st.cache
            else st.cache
          (.ok data, { st with cache := jsMapSet cache₁ mapName data })

-- ===== MAP DISCOVERY (src/index.js lines 214-272) =====

/-- Property access that can throw, as `index.maps` can when `index` is
`null` (a `TypeError` that lands in the enclosing catch block). -/
def getFieldEx : JsVal → String → Except String JsVal
  | .null, _ => .error "TypeError: cannot read properties of null"
  | .undefined, _ => .error "TypeError: cannot read properties of undefined"
  | v, k => .ok (getField v k)

def isJsArray : JsVal → Bool
  | .arr _ => true
  | _ => false

/-- `tryLoadMapsFromIndex()` (lines 214-258): every failure path — abort,
network error, non-ok response, parse error, and the `TypeError` a `null`
index would raise at `index.maps` — is caught inside the function and
yields `[]`. -/
def tryLoadMapsFromIndex (o : FetchOutcome) : JsVal :=
  match o with
  | .timeout => .arr []
  | .netFail _ => .arr []
  | .httpError _ _ => .arr []
  | .parseError _ => .arr []
  | .success index =>
    let mapsEx : Except String JsVal :=
      if isJsArray index then .ok index
      else (getFieldEx index "maps").map (fun m => if truthy m then m else .arr [])
    match mapsEx with
    | .ok maps => maps
    | .error _ => .arr []

/-- The truth value of `indexedMaps.length > 0` on an arbitrary value
(a missing `length` property is `undefined`, and `undefined > 0` is false). -/
def jsLengthPos : JsVal → Bool
  | .arr xs => decide (0 < xs.length)
  | .str s => decide (0 < s.length)
  | _ => false

/-- `discoverAvailableMaps()` (lines 260-272), returning the value assigned
to `extensionState.availableMaps` and returned to the caller. The function
is total: `tryLoadMapsFromIndex` catches every failure internally, so the
defensive catch of lines 267-271 is never reached and no error escapes. -/
def discoverAvailableMaps (o : FetchOutcome) : JsVal :=
  let indexedMaps := tryLoadMapsFromIndex o
  if jsLengthPos indexedMaps then indexedMaps else .arr [.str mapSettings.defaultMap]

-- ===== MAP NAME RESOLUTION (src/index.js lines 1015-1068) =====

/-- The matching predicate inside the `find` callback of `findMapByName`
(lines 1022-1037), applied to one entry of the known-maps list; `search` is
the already-lowercased search term. -/
def mapEntryMatches (search : String) (mapPath : String) : Bool :=
  let mapLower := jsToLower mapPath
  (mapLower == search) ||
    jsEndsWith mapLower ("/" ++ search ++ ".json") ||
    (mapLower == search ++ ".json") ||
    jsEndsWith mapLower ("/" ++ search) ||
    (mapLower == search)

/-- `findMapByName(searchTerm)` (lines 1015-1038) over a known-maps list of
strings (the shape the listing file provides). -/
def findMapByName (availableMaps : List String) (searchTerm : String) : Option String :=
  if availableMaps.length == 0 then none
  else
    let search := jsToLower searchTerm
    availableMaps.find? (fun mapPath => mapEntryMatches search mapPath)

/-- `resolveMapPath(input)` (lines 1045-1068): `none` models the `null`
returned for a falsy input. -/
def resolveMapPath (availableMaps : List String) (input : String) : Option String :=
  if input == "" then none
  else
    let trimmed := jsTrim input
    match findMapByName availableMaps trimmed with
    | some found => some found
    | none =>
      some (if jsEndsWith (jsToLower trimmed) ".json" then trimmed else trimmed ++ ".json")

/-- Modelled from the wording of the specification (section 4.7): the term
matches an entry when it case-insensitively equals the entry, or equals the
filename of the entry with or without a trailing `.json`. Used only to
compare the specified match set against the source predicate. -/
def fileNameOf (s : String) : String :=
  String.mk ((s.data.reverse.takeWhile (fun c => c != '/')).reverse)

def specNameMatches (term entry : String) : Prop :=
  jsToLower entry = jsToLower term ∨
    fileNameOf (jsToLower entry) = jsToLower term ∨
    fileNameOf (jsToLower entry) = jsToLower term ++ ".json"

-- ===== MAP AUDIO SUPPORT (src/index.js lines 329-442) =====

/-- The observable state of the hidden audio element: whether it is still
attached to the document body, its source, playback position and paused
flag. `inDom` stands for `document.body.contains(element)`. -/
structure AudioElem where
  inDom : Bool
  src : Option String
  currentTime : ℚ
  paused : Bool
deriving Repr, DecidableEq

/-- The module-level state of the audio overlay (`mapAudioElement`). -/
structure AudioState where
  mapAudioElement : Option AudioElem
deriving Repr, DecidableEq

def initialAudioState : AudioState := { mapAudioElement := none }

/-- A freshly created `<audio>` element (lines 341-350): attached, no
source, paused at position zero. -/
def freshAudioElem : AudioElem :=
  { inDom := true, src := none, currentTime := 0, paused := true }

/-- `getOrCreateMapAudioElement()` (lines 335-351) as a state transform. -/
def getOrCreateMapAudioElement (st : AudioState) : AudioState :=
  match st.mapAudioElement with
  | some a => if a.inDom then st else { mapAudioElement := some freshAudioElem }
  | none => { mapAudioElement := some freshAudioElem }

/-- `stopCurrentMapAudio()` (lines 356-367): when the element exists and is
still attached, pause it and reset its position; its source is left as it
is, and there is no close control for audio. -/
def stopCurrentMapAudio (st : AudioState) : AudioState :=
  match st.mapAudioElement with
  | none => st
  | some a =>
    if a.inDom then
      { mapAudioElement := some ({ a with paused := true, currentTime := 0 }) }
    else st

def soundHasExt (lower : String) : Bool :=
  jsEndsWith lower ".mp3" || jsEndsWith lower ".ogg" || jsEndsWith lower ".wav" ||
    jsEndsWith lower ".m4a" || jsEndsWith lower ".webm"

/-- `playMapSound(soundFileName)` (lines 374-442). A falsy argument returns
unchanged; a truthy non-string throws at `.trim()` and the catch block
leaves the state unchanged; a rejected path from `validateAssetPath` is
likewise caught before any element is created. On success the element is
created or reused, the previous sound is stopped, and the new source starts
playing from position zero. -/
def playMapSound (soundFileName : JsVal) (st : AudioState) : AudioState :=
  match soundFileName with
  | .str s =>
    if s == "" then st
    else
      let rp₀ := jsTrim s
      let rp₁ := if !(jsStartsWith (jsToLower rp₀) "sounds/") then "sounds/" ++ rp₀ else rp₀
      let relativePath := if !(soundHasExt (jsToLower rp₁)) then rp₁ ++ ".mp3" else rp₁
      match validateAssetPath (.str relativePath) with
      | .error _ => st
      | .ok _ =>
        let audioSrc := extensionFolderPath ++ "/" ++ relativePath
        let st₁ := stopCurrentMapAudio (getOrCreateMapAudioElement st)
        match st₁.mapAudioElement with
        | some a =>
          { mapAudioElement :=
              some ({ a with src := some audioSrc, currentTime := 0, paused := false }) }
        | none => st₁
  | _ => st

-- ===== IMAGE IN MAP WINDOW (src/index.js lines 445-603) =====

structure ImageElem where
  inDom : Bool
  src : Option String
  displayed : Bool
deriving Repr, DecidableEq

/-- A close-control button: attachment and visibility. -/
structure ButtonElem where
  inDom : Bool
  displayed : Bool
deriving Repr, DecidableEq

structure ImageState where
  mapImageElement : Option ImageElem
  mapImageCloseButton : Option ButtonElem
deriving Repr, DecidableEq

def initialImageState : ImageState :=
  { mapImageElement := none, mapImageCloseButton := none }

/-- A freshly created `<img>` (lines 464-477): attached, no source, hidden
(`display: none`). -/
def freshImageElem : ImageElem := { inDom := true, src := none, displayed := false }

/-- `getOrCreateMapImageElement()` (lines 451-507): the `Bool` is whether an
element is available (`false` models the `null` returned when the map
window container is absent). In the creation path the close button is
created if missing, appended, and hidden. -/
def getOrCreateMapImageElement (containerPresent : Bool) (st : ImageState) :
    ImageState × Bool :=
  if !containerPresent then (st, false)
  else
    match st.mapImageElement with
    | some e =>
      if e.inDom then
        let btn :=
          match st.mapImageCloseButton with
          | some b => if !b.inDom then some ({ b with inDom := true }) else some b
          | none => none
        ({ st with mapImageCloseButton := btn }, true)
      else
        let btn :=
          match st.mapImageCloseButton with
          | some b => some ({ b with inDom := true, displayed := false })
          | none => some ({ inDom := true, displayed := false })
        ({ mapImageElement := some freshImageElem, mapImageCloseButton := btn }, true)
    | none =>
      let btn :=
        match st.mapImageCloseButton with
        | some b => some ({ b with inDom := true, displayed := false })
        | none => some ({ inDom := true, displayed := false })
      ({ mapImageElement := some freshImageElem, mapImageCloseButton := btn }, true)

/-- `stopCurrentMapImage()` (lines 512-527): clear the source and hide the
image when it is still attached, and hide the close button when it is still
attached. -/
def stopCurrentMapImage (st : ImageState) : ImageState :=
  let elem :=
    match st.mapImageElement with
    | some e => if e.inDom then some ({ e with src := none, displayed := false }) else some e
    | none => none
  let btn :=
    match st.mapImageCloseButton with
    | some b => if b.inDom then some ({ b with displayed := false }) else some b
    | none => none
  { mapImageElement := elem, mapImageCloseButton := btn }

def imageHasExt (lower : String) : Bool :=
  jsEndsWith lower ".png" || jsEndsWith lower ".jpg" || jsEndsWith lower ".jpeg" ||
    jsEndsWith lower ".webp" || jsEndsWith lower ".gif"

/-- `showMapImage(imageName, opts)` (lines 535-603). The optional `sizePct`
resize only touches pixel geometry (computed from the rendered layout),
which is outside this state model; every field the claims mention is
tracked. -/
def showMapImage (imageName : JsVal) (containerPresent : Bool) (st : ImageState) :
    ImageState :=
  match imageName with
  | .str s =>
    if s == "" then st
    else
      let rp₀ := jsTrim s
      let rp₁ := if !(jsStartsWith (jsToLower rp₀) "images/") then "images/" ++ rp₀ else rp₀
      let relativePath := if !(imageHasExt (jsToLower rp₁)) then rp₁ ++ ".png" else rp₁
      match validateAssetPath (.str relativePath) with
      | .error _ => st
      | .ok _ =>
        let imgSrc := extensionFolderPath ++ "/" ++ relativePath
        let (st₁, available) := getOrCreateMapImageElement containerPresent st
        if !available then st₁
        else
          let st₂ := stopCurrentMapImage st₁
          match st₂.mapImageElement with
          | none => st₂
          | some e =>
            let btn :=
              match st₂.mapImageCloseButton with
              | some b => if b.inDom then some ({ b with displayed := true }) else some b
              | none => none
            { mapImageElement := some ({ e with displayed := true, src := some imgSrc })
            , mapImageCloseButton := btn }
  | _ => st

-- ===== VIDEO IN MAP WINDOW (src/index.js lines 606-815) =====

structure VideoElem where
  inDom : Bool
  src : Option String
  paused : Bool
  displayed : Bool
  muted : Bool
  loop : Bool
  autoplay : Bool
deriving Repr, DecidableEq

structure VideoState where
  mapVideoElement : Option VideoElem
  mapVideoCloseButton : Option ButtonElem
  resizeListenerInstalled : Bool
deriving Repr, DecidableEq

def initialVideoState : VideoState :=
  { mapVideoElement := none, mapVideoCloseButton := none, resizeListenerInstalled := false }

/-- A freshly created `<video>` (lines 626-642): attached, no source, not
hidden. -/
def freshVideoElem : VideoElem :=
  { inDom := true, src := none, paused := true, displayed := true
  , muted := false, loop := false, autoplay := false }

/-- `getOrCreateMapVideoElement()` (lines 612-674): unlike the image
variant, the tail of the creation path appends the close button without
hiding it. -/
def getOrCreateMapVideoElement (containerPresent : Bool) (st : VideoState) :
    VideoState × Bool :=
  if !containerPresent then (st, false)
  else
    match st.mapVideoElement with
    | some v =>
      if v.inDom then
        let btn :=
          match st.mapVideoCloseButton with
          | some b => if !b.inDom then some ({ b with inDom := true }) else some b
          | none => none
        ({ st with mapVideoCloseButton := btn }, true)
      else
        let btn :=
          match st.mapVideoCloseButton with
          | some b => some ({ b with inDom := true })
          | none => some ({ inDom := true, displayed := true })
        ({ st with mapVideoElement := some freshVideoElem, mapVideoCloseButton := btn }, true)
    | none =>
      let btn :=
        match st.mapVideoCloseButton with
        | some b => some ({ b with inDom := true })
        | none => some ({ inDom := true, displayed := true })
      ({ st with mapVideoElement := some freshVideoElem, mapVideoCloseButton := btn }, true)

/-- `stopCurrentMapVideo()` (lines 705-725): a detached element has its
reference dropped; an attached one is paused, its source cleared (the
`load()` call re-reads the now-empty source) and hidden; an attached close
button is hidden. -/
def stopCurrentMapVideo (st : VideoState) : VideoState :=
  let st₁ :=
    match st.mapVideoElement with
    | none => st
    | some v =>
      if !v.inDom then { st with mapVideoElement := none }
      else
        let v' := { v with paused := true, src := none, displayed := false }
        { st with mapVideoElement := some v' }
  match st₁.mapVideoCloseButton with
  | none => st₁
  | some b =>
    if b.inDom then { st₁ with mapVideoCloseButton := some ({ b with displayed := false }) }
    else st₁

def videoHasExt (lower : String) : Bool :=
  jsEndsWith lower ".mp4" || jsEndsWith lower ".webm" || jsEndsWith lower ".ogg" ||
    jsEndsWith lower ".m4v"

/-- The options object of `playMapVideo`; `sizePct` only drives pixel
geometry and is not part of the tracked state. -/
structure VideoOpts where
  muted : JsVal
  loop : JsVal
  autoplay : JsVal

def defaultVideoOpts : VideoOpts :=
  { muted := .undefined, loop := .undefined, autoplay := .undefined }

/-- The strict comparison `opts.autoplay !== false`. -/
def autoplayRequested (v : JsVal) : Bool :=
  match v with
  | .bool false => false
  | _ => true

/-- `playMapVideo(movieName, opts)` (lines 732-815). -/
def playMapVideo (movieName : JsVal) (opts : VideoOpts) (containerPresent : Bool)
    (st : VideoState) : VideoState :=
  match movieName with
  | .str s =>
    if s == "" then st
    else
      let mv₀ := jsTrim s
      let mv₁ := if !(jsStartsWith (jsToLower mv₀) "movies/") then "movies/" ++ mv₀ else mv₀
      let relativePath := if !(videoHasExt (jsToLower mv₁)) then mv₁ ++ ".mp4" else mv₁
      match validateAssetPath (.str relativePath) with
      | .error _ => st
      | .ok _ =>
        let videoSrc := extensionFolderPath ++ "/" ++ relativePath
        let (st₁, available) := getOrCreateMapVideoElement containerPresent st
        if !available then st₁
        else
          match st₁.mapVideoElement with
          | none => st₁
          | some v =>
            let v₁ := if v.src.isSome then { v with paused := true, src := none } else v
            let v₂ := { v₁ with displayed := true }
            let btn := st₁.mapVideoCloseButton.map (fun b => { b with displayed := true })
            let auto := autoplayRequested opts.autoplay
            let v₃ := { v₂ with src := some videoSrc, muted := truthy opts.muted,
                                loop := truthy opts.loop, autoplay := auto }
            let v₄ := if auto then { v₃ with paused := false } else v₃
            { mapVideoElement := some v₄, mapVideoCloseButton := btn,
              resizeListenerInstalled := true }
  | _ => st

-- ===== HOVER HANDLER (src/index.js lines 849-865) =====

/-- The rgba fill computed by `handleMouseOver`: the three `parseInt` results
(`none` for NaN) and the opacity. -/
structure RgbaFill where
  r : Option ℕ
  g : Option ℕ
  b : Option ℕ
  a : ℚ
deriving Repr, DecidableEq

def hexDigitVal (c : Char) : ℕ :=
  if c.isDigit then c.toNat - 48
  else if 'a' ≤ c && c ≤ 'f' then c.toNat - 87
  else c.toNat - 55

/-- `parseInt(s, 16)` on the two-character slices the handler feeds it: the
leading run of hexadecimal digits, NaN (`none`) when there is none. -/
def parseIntHex (s : String) : Option ℕ :=
  let ds := s.data.takeWhile isHexDig
  if ds.isEmpty then none
  else some (ds.foldl (fun acc c => 16 * acc + hexDigitVal c) 0)

/-- JavaScript `hex[i] + hex[i]`-style indexing: the one-character string at
an index, or the string `undefined` an out-of-range access concatenates. -/
def jsCharAt (s : String) (i : ℕ) : String :=
  match s.data.get? i with
  | some c => String.mk [c]
  | none => "undefined"

/-- `String.prototype.substring(a, b)` for the in-range slices used here. -/
def jsSubstring (s : String) (a b : ℕ) : String :=
  String.mk ((s.data.drop a).take (b - a))

/-- The fill `handleMouseOver` (lines 849-865) assigns, as a function of the
`data-original-color` of the shape. -/
def handleMouseOverFill (originalColor : String) : RgbaFill :=
  let hex := originalColor
  if hex.length == 4 then
    { r := parseIntHex (jsCharAt hex 1 ++ jsCharAt hex 1)
    , g := parseIntHex (jsCharAt hex 2 ++ jsCharAt hex 2)
    , b := parseIntHex (jsCharAt hex 3 ++ jsCharAt hex 3)
    , a := mapSettings.hoverOpacity }
  else
    { r := parseIntHex (jsSubstring hex 1 3)
    , g := parseIntHex (jsSubstring hex 3 5)
    , b := parseIntHex (jsSubstring hex 5 7)
    , a := mapSettings.hoverOpacity }

-- ===== AUXILIARY NOTIONS USED BY THE STATEMENTS =====

/-- Every document held in the cache passes `validateMapData`. -/
def cacheDocsValid (c : MapCache) : Prop :=
  ∀ p ∈ c, (validateMapData p.2).valid = true

/-- The Idle state of the audio overlay (specification section 4.5): any
attached audio element is paused. -/
def audioIdle (st : AudioState) : Prop :=
  ∀ a, st.mapAudioElement = some a → a.inDom = true → a.paused = true

/-- The Idle state of the video overlay: any attached video element has no
source and is hidden. -/
def videoIdle (st : VideoState) : Prop :=
  ∀ v, st.mapVideoElement = some v → v.inDom = true → v.src = none ∧ v.displayed = false

/-- The Idle state of the image overlay: any attached image element has no
source and is hidden. -/
def imageIdle (st : ImageState) : Prop :=
  ∀ e, st.mapImageElement = some e → e.inDom = true → e.src = none ∧ e.displayed = false

/-- A shape with `id`, `path` and `script` present and well typed but no
`color` field. -/
def c4Shape : JsVal :=
  .obj [("id", .str "zone1"), ("path", .str "M0 0H10V10Z"), ("script", .str "/echo hi")]

/-- A document with valid dimensions, a missing `backgroundImage.file` and
exactly one shape, which is missing only `color`. -/
def c4Doc : JsVal :=
  .obj [("backgroundImage", .obj [("width", .num 800), ("height", .num 600)]),
        ("shapes", .arr [c4Shape])]

/-- A document that passes `validateMapData`, used to drive the cache
through successful loads. -/
def exValidDoc : JsVal :=
  .obj [("backgroundImage",
          .obj [("file", .str "bg.png"), ("width", .num 800), ("height", .num 600)]),
        ("shapes",
          .arr [.obj [("id", .str "a"), ("path", .str "M0"), ("color", .str "#fff"),
                      ("script", .str "/e")]])]

-- ===== THEOREMS =====

/-- C1. `validateAssetPath` fails exactly on the inputs the specification
enumerates — empty, not a string, containing `..`, starting with `/` or a
backslash, containing a doubled backslash, or matching the drive-letter
pattern — and returns `true` on every other string. -/
theorem claim_C1 (p : JsInput) :
    ((∃ e, validateAssetPath p = .error e) ↔ specInvalidPath p = true) ∧
    (specInvalidPath p = false → validateAssetPath p = .ok true) := by
  cases p with
  | nonString =>
    refine ⟨⟨fun _ => rfl, fun _ => ⟨"Path must be a string", rfl⟩⟩, fun h => ?_⟩
    simp [specInvalidPath] at h
  | str s =>
    simp only [validateAssetPath, specInvalidPath]
    cases h₀ : (s == "") <;> cases h₁ : jsIncludes s ".." <;>
      cases h₂ : jsStartsWith s "/" <;> cases h₃ : jsStartsWith s "\\" <;>
      cases h₄ : jsIncludes s "\\\\" <;> cases h₅ : driveLetterTest s <;>
      simp [h₀, h₁, h₂, h₃, h₄, h₅]

/-- C1 witness: a concrete accepted path and a concrete rejected path. -/
theorem claim_C1_witness :
    validateAssetPath (.str "maps/city.json") = .ok true ∧
    (∃ e, validateAssetPath (.str "../etc/passwd") = .error e) := by
  constructor
  · exact (claim_C1 (.str "maps/city.json")).2 (by decide)
  · exact (claim_C1 (.str "../etc/passwd")).1.mpr (by decide)

/-- C4 counterexample: `c4Doc` is missing `backgroundImage.file`, has valid
dimensions, and holds exactly one shape that is missing only `color`
(its `id`, `path` and `script` are present, non-empty strings) — yet
`validateMapData` returns three errors, not the two the claim states: the
missing `color` field triggers both the missing-required-fields error and
the invalid-color error. -/
theorem claim_C4_counterexample :
    getField (getField c4Doc "backgroundImage") "file" = .undefined ∧
    jsToNumber (getField (getField c4Doc "backgroundImage") "width") = some 800 ∧
    jsToNumber (getField (getField c4Doc "backgroundImage") "height") = some 600 ∧
    getField c4Doc "shapes" = .arr [c4Shape] ∧
    getField c4Shape "id" = .str "zone1" ∧
    getField c4Shape "path" = .str "M0 0H10V10Z" ∧
    getField c4Shape "script" = .str "/echo hi" ∧
    getField c4Shape "color" = .undefined ∧
    validateMapData c4Doc =
      { valid := false
      , errors := ["backgroundImage.file: required and must be a string",
                   "Shape[0]: missing required fields (id, path, color, script)",
                   "Shape[0].color: invalid color \"undefined\""] } ∧
    (validateMapData c4Doc).errors.length = 3 :=
  ⟨rfl, rfl, rfl, rfl, rfl, rfl, rfl, rfl, by rfl, by rfl⟩

/-- C4 as amended: for every document missing `backgroundImage.file` whose
single shape is missing only `color`, validation returns `valid = false`
with exactly three errors — one naming `backgroundImage.file`, one
reporting the missing required fields of the shape by index, and one naming
the color field of the shape by index. -/
theorem claim_C4
    (fields bgf shf : List (String × JsVal)) (w h : ℚ) (idv pathv scriptv : String)
    (hbg : getField (.obj fields) "backgroundImage" = .obj bgf)
    (hfile : getField (.obj bgf) "file" = .undefined)
    (hw : jsToNumber (getField (.obj bgf) "width") = some w) (hwpos : 0 < w)
    (hh : jsToNumber (getField (.obj bgf) "height") = some h) (hhpos : 0 < h)
    (hshapes : getField (.obj fields) "shapes" = .arr [.obj shf])
    (hid : getField (.obj shf) "id" = .str idv) (hidne : idv ≠ "")
    (hpath : getField (.obj shf) "path" = .str pathv) (hpathne : pathv ≠ "")
    (hscript : getField (.obj shf) "script" = .str scriptv) (hscriptne : scriptv ≠ "")
    (hcolor : getField (.obj shf) "color" = .undefined) :
    validateMapData (.obj fields) =
      { valid := false
      , errors := ["backgroundImage.file: required and must be a string",
                   "Shape[0]: missing required fields (id, path, color, script)",
                   "Shape[0].color: invalid color \"undefined\""] } := by
  have hwle : decide (w ≤ 0) = false := decide_eq_false (not_le.mpr hwpos)
  have hhle : decide (h ≤ 0) = false := decide_eq_false (not_le.mpr hhpos)
  have hidb : (idv == "") = false := beq_eq_false_iff_ne.mpr hidne
  have hpathb : (pathv == "") = false := beq_eq_false_iff_ne.mpr hpathne
  have hscriptb : (scriptv == "") = false := beq_eq_false_iff_ne.mpr hscriptne
  simp only [validateMapData, truthy, jsTypeof, hbg, hfile, hshapes, jsOptChain, hw, hh,
    validateShapes, validateShape, hid, hpath, hscript, hcolor, jsIsFinite, jsLeZero,
    hwle, hhle, hidb, hpathb, hscriptb, isValidColor, jsToString]
  simp [colorPatternTest]
  exact ⟨by decide, by decide⟩

/-- C4 witness: the amended statement applied to the concrete document
`c4Doc`. -/
theorem claim_C4_witness :
    validateMapData c4Doc =
      { valid := false
      , errors := ["backgroundImage.file: required and must be a string",
                   "Shape[0]: missing required fields (id, path, color, script)",
                   "Shape[0].color: invalid color \"undefined\""] } :=
  claim_C4
    [("backgroundImage", .obj [("width", .num 800), ("height", .num 600)]),
     ("shapes", .arr [c4Shape])]
    [("width", .num 800), ("height", .num 600)]
    [("id", .str "zone1"), ("path", .str "M0 0H10V10Z"), ("script", .str "/echo hi")]
    800 600 "zone1" "M0 0H10V10Z" "/echo hi"
    rfl rfl rfl (by decide) rfl (by decide) rfl rfl (by decide) rfl (by decide) rfl
    (by decide) rfl

/-- Every entry of `jsMapSet c k v` is an entry of `c` or the new pair. -/
theorem mem_jsMapSet {c : MapCache} {k : String} {v : JsVal} {p : String × JsVal}
    (h : p ∈ jsMapSet c k v) : p ∈ c ∨ p = (k, v) := by
  induction c with
  | nil => simpa [jsMapSet] using h
  | cons q rest ih =>
    by_cases hq : (q.1 == k)
    · simp [jsMapSet, hq] at h
      rcases h with h | h
      · right; simpa using h
      · left; exact List.mem_cons_of_mem _ h
    · simp only [jsMapSet] at h
      rw [if_neg hq] at h
      rcases List.mem_cons.mp h with h | h
      · left; simp [h]
      · rcases ih h with h | h
        · left; exact List.mem_cons_of_mem _ h
        · right; exact h

/-- `jsMapDelete` only removes entries. -/
theorem mem_jsMapDelete {c : MapCache} {k : String} {p : String × JsVal}
    (h : p ∈ jsMapDelete c k) : p ∈ c := by
  induction c with
  | nil => simp [jsMapDelete] at h
  | cons q rest ih =>
    by_cases hq : (q.1 == k)
    · simp only [jsMapDelete] at h
      rw [if_pos hq] at h
      exact List.mem_cons_of_mem _ h
    · simp only [jsMapDelete] at h
      rw [if_neg hq] at h
      rcases List.mem_cons.mp h with h | h
      · simp [h]
      · exact List.mem_cons_of_mem _ (ih h)

/-- C2. The cache only ever holds validated documents: whenever
`loadMapData` fails — path rejection, timeout, network or HTTP error, parse
error, or schema validation failure — the cache is left unchanged, and one
call preserves the invariant that every cached document passes
`validateMapData` (in particular an invalid document is never inserted). -/
theorem claim_C2 (fetch : String → FetchOutcome) (st : LoadState) (mapName : String) :
    (∀ e, (loadMapData fetch st mapName).1 = .error e →
      (loadMapData fetch st mapName).2.cache = st.cache) ∧
    (cacheDocsValid st.cache → cacheDocsValid (loadMapData fetch st mapName).2.cache) := by
  unfold loadMapData
  split
  · exact ⟨fun _ _ => rfl, fun hv => hv⟩
  · split
    · exact ⟨fun _ _ => rfl, fun hv => hv⟩
    · split
      · exact ⟨fun _ _ => rfl, fun hv => hv⟩
      · exact ⟨fun _ _ => rfl, fun hv => hv⟩
      · exact ⟨fun _ _ => rfl, fun hv => hv⟩
      · exact ⟨fun _ _ => rfl, fun hv => hv⟩
      · rename_i data hfs
        by_cases hvd : (validateMapData data).valid = true
        · rw [if_neg (by simp [hvd])]
          constructor
          · intro e he; simp at he
          · intro hv p hp
            rcases mem_jsMapSet hp with hp | hp
            · split at hp
              · rename_i hlen
                split at hp
                · exact hv p (mem_jsMapDelete hp)
                · exact hv p hp
              · exact hv p hp
            · subst hp; exact hvd
        · rw [Bool.not_eq_true] at hvd
          rw [if_pos (by simp [hvd])]
          exact ⟨fun _ _ => rfl, fun hv => hv⟩

/-- C2 witness: a concrete failing load (timeout) leaves the empty cache
unchanged and valid. -/
theorem claim_C2_witness :
    (loadMapData (fun _ => .timeout) initialLoadState "m").2.cache = initialLoadState.cache ∧
    cacheDocsValid (loadMapData (fun _ => .timeout) initialLoadState "m").2.cache := by
  constructor
  · exact (claim_C2 (fun _ => .timeout) initialLoadState "m").1 "Timeout loading map: m" (by rfl)
  · exact (claim_C2 (fun _ => .timeout) initialLoadState "m").2 (by intro p hp; simp [initialLoadState] at hp)

/-- A cache lookup misses exactly when no entry has the key. -/
theorem jsMapGet_eq_none_iff {c : MapCache} {k : String} :
    jsMapGet c k = none ↔ ∀ p ∈ c, ¬(p.1 == k) := by
  simp [jsMapGet, List.find?_eq_none]

/-- A cache lookup hits when some entry has the key. -/
theorem jsMapGet_isSome_of {c : MapCache} {k : String} (h : ∃ p ∈ c, p.1 = k) :
    (jsMapGet c k).isSome = true := by
  rcases h with ⟨p, hp, hk⟩
  simp only [jsMapGet, Option.isSome_map']
  refine List.find?_isSome.mpr ⟨p, hp, ?_⟩
  rw [hk]
  exact beq_self_eq_true k

/-- Setting a fresh key appends the entry at the back (insertion order). -/
theorem jsMapSet_append {c : MapCache} {k : String} {v : JsVal}
    (h : ∀ p ∈ c, ¬(p.1 == k)) : jsMapSet c k v = c ++ [(k, v)] := by
  induction c with
  | nil => rfl
  | cons q rest ih =>
    have hq : ¬(q.1 == k) = true := h q (List.mem_cons_self _ _)
    simp only [jsMapSet]
    rw [if_neg hq]
    rw [ih (fun p hp => h p (List.mem_cons_of_mem _ hp))]
    simp

/-- The cache-management block of `loadMapData` (lines 301-306) on a fresh
key: at capacity the single oldest entry is dropped, then the new entry is
appended. -/
theorem cacheInsert_eq (c : MapCache) (n : String) (d : JsVal)
    (hfresh : ∀ p ∈ c, ¬(p.1 == n)) :
    jsMapSet
      (if c.length ≥ mapSettings.maxMapCache then
        (match c.head? with
         | some kv => jsMapDelete c kv.1
         | none => c)
      else c) n d
    = (if c.length ≥ mapSettings.maxMapCache then c.tail else c) ++ [(n, d)] := by
  by_cases hlen : c.length ≥ mapSettings.maxMapCache
  · rw [if_pos hlen, if_pos hlen]
    cases c with
    | nil =>
      simp only [List.head?_nil, List.tail_nil]
      exact jsMapSet_append hfresh
    | cons q rest =>
      simp only [List.head?_cons, List.tail_cons]
      have hdel : jsMapDelete (q :: rest) q.1 = rest := by
        simp [jsMapDelete]
      rw [hdel]
      exact jsMapSet_append (fun p hp => hfresh p (List.mem_cons_of_mem _ hp))
  · rw [if_neg hlen, if_neg hlen]
    exact jsMapSet_append hfresh

/-- A successful cache-missing load appends the new document, dropping the
oldest entry exactly when the cache is at or above capacity. -/
theorem loadMapData_cache_insert {fetch : String → FetchOutcome} {st : LoadState}
    {n : String} {d : JsVal}
    (hmiss : jsMapGet st.cache n = none)
    (hpath : validateAssetPath (.str n) = .ok true)
    (hfetch : fetch (mapUrl n) = .success d)
    (hvalid : (validateMapData d).valid = true) :
    (loadMapData fetch st n).2.cache =
      (if st.cache.length ≥ mapSettings.maxMapCache then st.cache.tail else st.cache)
        ++ [(n, d)] := by
  have hfresh : ∀ p ∈ st.cache, ¬(p.1 == n) := jsMapGet_eq_none_iff.mp hmiss
  unfold loadMapData
  rw [hmiss, hpath, hfetch]
  simp only [hvalid, Bool.not_true]
  rw [if_neg (by simp)]
  exact cacheInsert_eq st.cache n d hfresh

/-- Folding successful fresh loads over the cache keeps the last
`maxMapCache` insertions: the resulting cache is the concatenation of old
entries and new pairs with the oldest surplus dropped. -/
theorem loadFold_cache (fetch : String → FetchOutcome) (docOf : String → JsVal) :
    ∀ (ns : List String) (st : LoadState),
    ns.Nodup →
    (∀ n ∈ ns, ∀ p ∈ st.cache, ¬(p.1 == n)) →
    (∀ n ∈ ns, fetch (mapUrl n) = .success (docOf n)) →
    (∀ n ∈ ns, (validateMapData (docOf n)).valid = true) →
    (∀ n ∈ ns, validateAssetPath (.str n) = .ok true) →
    st.cache.length ≤ mapSettings.maxMapCache →
    (ns.foldl (fun s n => (loadMapData fetch s n).2) st).cache
      = (st.cache ++ ns.map (fun n => (n, docOf n))).drop
          (st.cache.length + ns.length - mapSettings.maxMapCache) := by
  intro ns
  induction ns with
  | nil =>
    intro st _ _ _ _ _ hlen
    have h0 : st.cache.length - mapSettings.maxMapCache = 0 := by omega
    simp [h0]
  | cons n rest ih =>
    intro st hnodup hfresh hfetch hvalid hpath hlen
    have hmiss : jsMapGet st.cache n = none :=
      jsMapGet_eq_none_iff.mpr (hfresh n (List.mem_cons_self _ _))
    have hstep := @loadMapData_cache_insert fetch st n (docOf n)
      hmiss (hpath n (List.mem_cons_self _ _))
      (hfetch n (List.mem_cons_self _ _)) (hvalid n (List.mem_cons_self _ _))
    set st' := (loadMapData fetch st n).2 with hst'
    have hnodup' : rest.Nodup := (List.nodup_cons.mp hnodup).2
    have hninrest : n ∉ rest := (List.nodup_cons.mp hnodup).1
    have hfresh' : ∀ m ∈ rest, ∀ p ∈ st'.cache, ¬(p.1 == m) := by
      intro m hm p hp
      rw [hstep] at hp
      rcases List.mem_append.mp hp with hp | hp
      · have hpc : p ∈ st.cache := by
          by_cases hlen2 : st.cache.length ≥ mapSettings.maxMapCache
        
          · rw [if_pos hlen2] at hp
            exact List.mem_of_mem_tail hp
          · rw [if_neg hlen2] at hp
            exact hp
        exact hfresh m (List.mem_cons_of_mem _ hm) p hpc
      · have hpn : p = (n, docOf n) := by simpa using hp
        subst hpn
        intro hcontra
        have hnm : n = m := by simpa using hcontra
        exact hninrest (hnm ▸ hm)
    have hfetch' : ∀ m ∈ rest, fetch (mapUrl m) = .success (docOf m) :=
      fun m hm => hfetch m (List.mem_cons_of_mem _ hm)
    have hvalid' : ∀ m ∈ rest, (validateMapData (docOf m)).valid = true :=
      fun m hm => hvalid m (List.mem_cons_of_mem _ hm)
    have hpath' : ∀ m ∈ rest, validateAssetPath (.str m) = .ok true :=
      fun m hm => hpath m (List.mem_cons_of_mem _ hm)
    by_cases hlen2 : st.cache.length ≥ mapSettings.maxMapCache
    · have hM : st.cache.length = mapSettings.maxMapCache := le_antisymm hlen hlen2
      cases hc : st.cache with
      | nil => rw [hc] at hM; simp [mapSettings] at hM
      | cons hd tl =>
        have hcache' : st'.cache = tl ++ [(n, docOf n)] := by
          rw [hstep, if_pos hlen2, hc, List.tail_cons]
        have hlen' : st'.cache.length ≤ mapSettings.maxMapCache := by
          rw [hcache']
          rw [hc] at hM
          simp only [List.length_append, List.length_cons, List.length_nil] at hM ⊢
          omega
        have hmain := ih st' hnodup' hfresh' hfetch' hvalid' hpath' hlen'
        rw [List.foldl_cons, ← hst', hmain, hcache']
        rw [hc, List.length_cons] at hM
        have hcnt1 : (tl ++ [(n, docOf n)]).length + rest.length - mapSettings.maxMapCache
            = rest.length := by
          simp only [List.length_append, List.length_cons, List.length_nil]
          omega
        have hcnt2 : (hd :: tl).length + (n :: rest).length - mapSettings.maxMapCache
            = rest.length + 1 := by
          simp only [List.length_cons]
          omega
        rw [hcnt1, hcnt2]
        simp only [List.map_cons, List.cons_append, List.drop_succ_cons,
          List.append_assoc, List.singleton_append, List.nil_append]
    · have hcache' : st'.cache = st.cache ++ [(n, docOf n)] := by
        rw [hstep, if_neg hlen2]
      have hlen' : st'.cache.length ≤ mapSettings.maxMapCache := by
        rw [hcache']
        simp only [List.length_append, List.length_cons, List.length_nil]
        omega
      have hmain := ih st' hnodup' hfresh' hfetch' hvalid' hpath' hlen'
      rw [List.foldl_cons, ← hst', hmain, hcache']
      have hcnt : (st.cache ++ [(n, docOf n)]).length + rest.length - mapSettings.maxMapCache
          = st.cache.length + (n :: rest).length - mapSettings.maxMapCache := by
        simp only [List.length_append, List.length_cons, List.length_nil]
        omega
      rw [hcnt]
      simp only [List.map_cons, List.append_assoc, List.singleton_append,
        List.cons_append, List.nil_append]

/-- C3. Cache eviction is strict FIFO with a fixed bound: loading
`maxMapCache + 1` documents under distinct fresh names (each a cache miss,
each fetch successful and valid) leaves exactly `maxMapCache` entries, with
the first-loaded name absent and every later name present; moreover, any
single insertion at capacity drops exactly the oldest entry before
appending the new one. -/
theorem claim_C3 (fetch : String → FetchOutcome) (docOf : String → JsVal)
    (n₀ : String) (rest : List String)
    (hnodup : (n₀ :: rest).Nodup)
    (hlen : (n₀ :: rest).length = mapSettings.maxMapCache + 1)
    (hfetch : ∀ n ∈ n₀ :: rest, fetch (mapUrl n) = .success (docOf n))
    (hvalid : ∀ n ∈ n₀ :: rest, (validateMapData (docOf n)).valid = true)
    (hpath : ∀ n ∈ n₀ :: rest, validateAssetPath (.str n) = .ok true) :
    ((n₀ :: rest).foldl (fun s n => (loadMapData fetch s n).2) initialLoadState).cache.length
        = mapSettings.maxMapCache ∧
    jsMapGet ((n₀ :: rest).foldl (fun s n => (loadMapData fetch s n).2)
        initialLoadState).cache n₀ = none ∧
    (∀ k ∈ rest, (jsMapGet ((n₀ :: rest).foldl (fun s n => (loadMapData fetch s n).2)
        initialLoadState).cache k).isSome = true) ∧
    (∀ st n d, jsMapGet st.cache n = none → validateAssetPath (.str n) = .ok true →
      fetch (mapUrl n) = .success d → (validateMapData d).valid = true →
      st.cache.length ≥ mapSettings.maxMapCache →
      (loadMapData fetch st n).2.cache = st.cache.tail ++ [(n, d)]) := by
  have hfold := loadFold_cache fetch docOf (n₀ :: rest) initialLoadState hnodup
    (by intro n hn p hp; simp [initialLoadState] at hp) hfetch hvalid hpath
    (by simp [initialLoadState])
  have hrest : rest.length = mapSettings.maxMapCache := by
    simp only [List.length_cons] at hlen
    omega
  have hcache : ((n₀ :: rest).foldl (fun s n => (loadMapData fetch s n).2)
      initialLoadState).cache = rest.map (fun n => (n, docOf n)) := by
    rw [hfold]
    simp only [initialLoadState, List.length_nil, List.nil_append, List.map_cons,
      List.length_cons, List.length_map]
    have h1 : 0 + (rest.length + 1) - mapSettings.maxMapCache = 1 := by omega
    rw [h1, List.drop_succ_cons, List.drop_zero]
  have hn₀ : n₀ ∉ rest := (List.nodup_cons.mp hnodup).1
  refine ⟨?_, ?_, ?_, ?_⟩
  · rw [hcache]; simpa using hrest
  · rw [hcache]
    apply jsMapGet_eq_none_iff.mpr
    intro p hp
    rcases List.mem_map.mp hp with ⟨k, hk, hpk⟩
    subst hpk
    simp only [beq_iff_eq]
    intro hkn
    exact hn₀ (hkn ▸ hk)
  · intro k hk
    rw [hcache]
    exact jsMapGet_isSome_of ⟨(k, docOf k), List.mem_map.mpr ⟨k, hk, rfl⟩, rfl⟩
  · intro st n d hmiss hpath' hfetch' hvalid' hlen'
    have := @loadMapData_cache_insert fetch st n d hmiss hpath' hfetch' hvalid'
    rw [this, if_pos hlen']

/-- C3 witness: eleven concrete distinct names loaded into the empty cache
with a fixed valid document. -/
theorem claim_C3_witness :
    ((["m0.json", "m1.json", "m2.json", "m3.json", "m4.json", "m5.json", "m6.json",
        "m7.json", "m8.json", "m9.json", "m10.json"].foldl
        (fun s n => (loadMapData (fun _ => .success exValidDoc) s n).2)
        initialLoadState).cache.length = mapSettings.maxMapCache) ∧
    jsMapGet ((["m0.json", "m1.json", "m2.json", "m3.json", "m4.json", "m5.json",
        "m6.json", "m7.json", "m8.json", "m9.json", "m10.json"].foldl
        (fun s n => (loadMapData (fun _ => .success exValidDoc) s n).2)
        initialLoadState).cache) "m0.json" = none ∧
    (∀ k ∈ ["m1.json", "m2.json", "m3.json", "m4.json", "m5.json", "m6.json",
        "m7.json", "m8.json", "m9.json", "m10.json"],
      (jsMapGet ((["m0.json", "m1.json", "m2.json", "m3.json", "m4.json", "m5.json",
        "m6.json", "m7.json", "m8.json", "m9.json", "m10.json"].foldl
        (fun s n => (loadMapData (fun _ => .success exValidDoc) s n).2)
        initialLoadState).cache) k).isSome = true) ∧
    (∀ st n d, jsMapGet st.cache n = none → validateAssetPath (.str n) = .ok true →
      (fun _ => FetchOutcome.success exValidDoc : String → FetchOutcome) (mapUrl n)
        = .success d →
      (validateMapData d).valid = true →
      st.cache.length ≥ mapSettings.maxMapCache →
      (loadMapData (fun _ => .success exValidDoc) st n).2.cache
        = st.cache.tail ++ [(n, d)]) :=
  claim_C3 (fun _ => .success exValidDoc) (fun _ => exValidDoc) "m0.json"
    ["m1.json", "m2.json", "m3.json", "m4.json", "m5.json", "m6.json", "m7.json",
      "m8.json", "m9.json", "m10.json"]
    (by decide) (by decide) (fun _ _ => rfl)
    (fun _ _ => (by decide : (validateMapData exValidDoc).valid = true))
    (by intro n hn; fin_cases hn <;> rfl)

/-- C5 counterexample: stopping an actively playing, attached audio element
pauses it and resets its position but retains its source — the claim states
the source is cleared for audio — and the audio overlay has no close
control at all (its state carries none). -/
theorem claim_C5_counterexample :
    stopCurrentMapAudio
        { mapAudioElement :=
            some { inDom := true, src := some "sounds/theme.mp3", currentTime := 7,
                   paused := false } }
      = { mapAudioElement :=
            some { inDom := true, src := some "sounds/theme.mp3", currentTime := 0,
                   paused := true } } := by
  rfl

/-- C5 as amended: when a resource is active (attached), `stop()` releases
it per kind — audio is paused with its position reset to zero, its source
retained, and it has no close control; video is paused, its source cleared
and hidden, and its attached close control hidden; image has its source
cleared and is hidden, and its attached close control hidden — and each
kind returns to its Idle state. -/
theorem claim_C5 :
    (∀ st a, st.mapAudioElement = some a → a.inDom = true →
      stopCurrentMapAudio st
        = { mapAudioElement := some { a with paused := true, currentTime := 0 } } ∧
      audioIdle (stopCurrentMapAudio st)) ∧
    (∀ st v, st.mapVideoElement = some v → v.inDom = true →
      (stopCurrentMapVideo st).mapVideoElement
        = some { v with paused := true, src := none, displayed := false } ∧
      (∀ b, st.mapVideoCloseButton = some b → b.inDom = true →
        (stopCurrentMapVideo st).mapVideoCloseButton
          = some { b with displayed := false }) ∧
      videoIdle (stopCurrentMapVideo st)) ∧
    (∀ st e, st.mapImageElement = some e → e.inDom = true →
      (stopCurrentMapImage st).mapImageElement
        = some { e with src := none, displayed := false } ∧
      (∀ b, st.mapImageCloseButton = some b → b.inDom = true →
        (stopCurrentMapImage st).mapImageCloseButton
          = some { b with displayed := false }) ∧
      imageIdle (stopCurrentMapImage st)) := by
  refine ⟨?_, ?_, ?_⟩
  · intro st a ha hdom
    have heq : stopCurrentMapAudio st
        = { mapAudioElement := some { a with paused := true, currentTime := 0 } } := by
      simp [stopCurrentMapAudio, ha, hdom]
    refine ⟨heq, ?_⟩
    rw [heq]
    intro a' ha' _
    simp only [Option.some.injEq] at ha'
    rw [← ha']
  · intro st v hv hdom
    have hstop : ∀ b', (stopCurrentMapVideo st).mapVideoElement
        = some { v with paused := true, src := none, displayed := false } ∧
        (st.mapVideoCloseButton = some b' → b'.inDom = true →
          (stopCurrentMapVideo st).mapVideoCloseButton
            = some { b' with displayed := false }) := by
      intro b'
      cases hb : st.mapVideoCloseButton with
      | none =>
        constructor
        · simp [stopCurrentMapVideo, hv, hdom, hb]
        · intro hb'; cases hb'
      | some b =>
        by_cases hbdom : b.inDom = true
        · constructor
          · simp [stopCurrentMapVideo, hv, hdom, hb, hbdom]
          · intro hb' hbdom'
            injection hb' with hb''
            subst hb''
            simp [stopCurrentMapVideo, hv, hdom, hb, hbdom]
        · constructor
          · simp [stopCurrentMapVideo, hv, hdom, hb, hbdom]
          · intro hb' hbdom'
            injection hb' with hb''
            subst hb''
            exact absurd hbdom' hbdom
    refine ⟨(hstop { inDom := false, displayed := false }).1, ?_, ?_⟩
    · intro b hb hbdom
      exact (hstop b).2 hb hbdom
    · intro v' hv' _
      rw [(hstop { inDom := false, displayed := false }).1] at hv'
      simp only [Option.some.injEq] at hv'
      rw [← hv']
      exact ⟨rfl, rfl⟩
  · intro st e he hdom
    have helem : (stopCurrentMapImage st).mapImageElement
        = some { e with src := none, displayed := false } := by
      simp [stopCurrentMapImage, he, hdom]
    refine ⟨helem, ?_, ?_⟩
    · intro b hb hbdom
      simp [stopCurrentMapImage, hb, hbdom]
    · intro e' he' _
      rw [helem] at he'
      simp only [Option.some.injEq] at he'
      rw [← he']
      exact ⟨rfl, rfl⟩

/-- C5 witness: the video and image parts applied to concrete active
states. -/
theorem claim_C5_witness :
    (stopCurrentMapVideo
        { mapVideoElement :=
            some { inDom := true, src := some "movies/intro.mp4", paused := false,
                   displayed := true, muted := false, loop := false, autoplay := true }
        , mapVideoCloseButton := some { inDom := true, displayed := true }
        , resizeListenerInstalled := true }).mapVideoElement
      = some { inDom := true, src := none, paused := true, displayed := false,
               muted := false, loop := false, autoplay := true } ∧
    (stopCurrentMapImage
        { mapImageElement := some { inDom := true, src := some "images/a.png",
                                    displayed := true }
        , mapImageCloseButton := some { inDom := true, displayed := true } }).mapImageElement
      = some { inDom := true, src := none, displayed := false } := by
  constructor
  · exact (claim_C5.2.1
      { mapVideoElement :=
          some { inDom := true, src := some "movies/intro.mp4", paused := false,
                 displayed := true, muted := false, loop := false, autoplay := true }
      , mapVideoCloseButton := some { inDom := true, displayed := true }
      , resizeListenerInstalled := true }
      { inDom := true, src := some "movies/intro.mp4", paused := false,
        displayed := true, muted := false, loop := false, autoplay := true }
      rfl rfl).1
  · exact (claim_C5.2.2
      { mapImageElement := some { inDom := true, src := some "images/a.png",
                                  displayed := true }
      , mapImageCloseButton := some { inDom := true, displayed := true } }
      { inDom := true, src := some "images/a.png", displayed := true }
      rfl rfl).1

/-- C8. Each `stop()` is total (the embedded transition functions are total
functions, mirroring the try/catch and existence guards of the source) and
idempotent: a second consecutive call changes nothing, the state after any
call is Idle, and calling on the never-started initial state is a no-op
that leaves Idle. -/
theorem claim_C8 :
    (∀ st : AudioState,
      stopCurrentMapAudio (stopCurrentMapAudio st) = stopCurrentMapAudio st ∧
      audioIdle (stopCurrentMapAudio st)) ∧
    (∀ st : VideoState,
      stopCurrentMapVideo (stopCurrentMapVideo st) = stopCurrentMapVideo st ∧
      videoIdle (stopCurrentMapVideo st)) ∧
    (∀ st : ImageState,
      stopCurrentMapImage (stopCurrentMapImage st) = stopCurrentMapImage st ∧
      imageIdle (stopCurrentMapImage st)) ∧
    (stopCurrentMapAudio initialAudioState = initialAudioState ∧
      audioIdle initialAudioState) ∧
    (stopCurrentMapVideo initialVideoState = initialVideoState ∧
      videoIdle initialVideoState) ∧
    (stopCurrentMapImage initialImageState = initialImageState ∧
      imageIdle initialImageState) := by
  refine ⟨?_, ?_, ?_, ?_, ?_, ?_⟩
  · intro st
    cases st with
    | mk elem =>
      cases elem with
      | none => exact ⟨rfl, by intro a ha _; cases ha⟩
      | some a =>
        by_cases hdom : a.inDom = true
        · constructor
          · simp [stopCurrentMapAudio, hdom]
          · intro a' ha' _
            simp [stopCurrentMapAudio, hdom] at ha'
            rw [← ha']
        · constructor
          · simp [stopCurrentMapAudio, hdom]
          · intro a' ha' hdom'
            simp [stopCurrentMapAudio, hdom] at ha'
            rw [← ha'] at hdom'
            exact absurd hdom' hdom
  · intro st
    cases st with
    | mk elem btn listener =>
      cases elem with
      | none =>
        cases btn with
        | none => exact ⟨rfl, by intro v hv _; cases hv⟩
        | some b =>
          by_cases hbdom : b.inDom = true
          · constructor
            · simp [stopCurrentMapVideo, hbdom]
            · intro v hv _
              simp [stopCurrentMapVideo, hbdom] at hv
          · constructor
            · simp [stopCurrentMapVideo, hbdom]
            · intro v hv _
              simp [stopCurrentMapVideo, hbdom] at hv
      | some v =>
        by_cases hdom : v.inDom = true <;>
        · cases btn with
          | none =>
            constructor
            · simp [stopCurrentMapVideo, hdom]
            · intro v' hv' hdom'
              first
                | (simp [stopCurrentMapVideo, hdom] at hv'; done)
                | (simp [stopCurrentMapVideo, hdom] at hv';
                   rw [← hv']; exact ⟨rfl, rfl⟩)
          | some b =>
            by_cases hbdom : b.inDom = true <;>
            · constructor
              · simp [stopCurrentMapVideo, hdom, hbdom]
              · intro v' hv' hdom'
                first
                  | (simp [stopCurrentMapVideo, hdom, hbdom] at hv'; done)
                  | (simp [stopCurrentMapVideo, hdom, hbdom] at hv';
                     rw [← hv']; exact ⟨rfl, rfl⟩)
  · intro st
    cases st with
    | mk elem btn =>
      cases elem with
      | none =>
        cases btn with
        | none => exact ⟨rfl, by intro e he _; simp [stopCurrentMapImage] at he⟩
        | some b =>
          by_cases hbdom : b.inDom = true <;>
          · constructor
            · simp [stopCurrentMapImage, hbdom]
            · intro e he _
              simp [stopCurrentMapImage, hbdom] at he
      | some e =>
        by_cases hdom : e.inDom = true <;>
        · cases btn with
          | none =>
            constructor
            · simp [stopCurrentMapImage, hdom]
            · intro e' he' hdom'
              first
                | (simp [stopCurrentMapImage, hdom] at he'; done)
                | (simp [stopCurrentMapImage, hdom] at he';
                   rw [← he']; exact ⟨rfl, rfl⟩)
                | (simp [stopCurrentMapImage, hdom] at he';
                   rw [← he'] at hdom'; exact absurd hdom' (by simpa using hdom))
          | some b =>
            by_cases hbdom : b.inDom = true <;>
            · constructor
              · simp [stopCurrentMapImage, hdom, hbdom]
              · intro e' he' hdom'
                first
                  | (simp [stopCurrentMapImage, hdom, hbdom] at he'; done)
                  | (simp [stopCurrentMapImage, hdom, hbdom] at he';
                     rw [← he']; exact ⟨rfl, rfl⟩)
                  | (simp [stopCurrentMapImage, hdom, hbdom] at he';
                     rw [← he'] at hdom'; exact absurd hdom' (by simpa using hdom))
  · exact ⟨rfl, by intro a ha _; cases ha⟩
  · exact ⟨rfl, by intro v hv _; cases hv⟩
  · exact ⟨rfl, by intro e he _; cases he⟩

/-- C10. A falsy name argument (`undefined`, `null`, the empty string)
makes each of `playMapSound`, `showMapImage` and `playMapVideo` return
immediately with the overlay state of its kind untouched. -/
theorem claim_C10 :
    (∀ st, playMapSound .undefined st = st) ∧
    (∀ st, playMapSound .null st = st) ∧
    (∀ st, playMapSound (.str "") st = st) ∧
    (∀ c st, showMapImage .undefined c st = st) ∧
    (∀ c st, showMapImage .null c st = st) ∧
    (∀ c st, showMapImage (.str "") c st = st) ∧
    (∀ o c st, playMapVideo .undefined o c st = st) ∧
    (∀ o c st, playMapVideo .null o c st = st) ∧
    (∀ o c st, playMapVideo (.str "") o c st = st) :=
  ⟨fun _ => rfl, fun _ => rfl, fun _ => rfl, fun _ _ => rfl, fun _ _ => rfl, fun _ _ => rfl,
   fun _ _ _ => rfl, fun _ _ _ => rfl, fun _ _ _ => rfl⟩

/-- C6. `discoverAvailableMaps` surfaces no error: every failing outcome of
the listing fetch — timeout, network failure, HTTP error, parse failure —
and the degenerate successes (empty listing, `null` listing, object without
a usable `maps` array) all return normally with the one-element default
list. The embedded `tryLoadMapsFromIndex` is a total function because the
source catches every failure internally; the defensive catch in
`discoverAvailableMaps` itself is unreachable. -/
theorem claim_C6 :
    (discoverAvailableMaps .timeout = .arr [.str mapSettings.defaultMap]) ∧
    (∀ m, discoverAvailableMaps (.netFail m) = .arr [.str mapSettings.defaultMap]) ∧
    (∀ status statusText, discoverAvailableMaps (.httpError status statusText)
      = .arr [.str mapSettings.defaultMap]) ∧
    (∀ m, discoverAvailableMaps (.parseError m) = .arr [.str mapSettings.defaultMap]) ∧
    (discoverAvailableMaps (.success (.arr [])) = .arr [.str mapSettings.defaultMap]) ∧
    (discoverAvailableMaps (.success .null) = .arr [.str mapSettings.defaultMap]) ∧
    (discoverAvailableMaps (.success (.obj [])) = .arr [.str mapSettings.defaultMap]) :=
  ⟨rfl, fun _ => rfl, fun _ _ => rfl, fun _ => rfl, rfl, rfl, rfl⟩

/-- C9. Hover color decoding is form-independent: a 3-digit hex color
yields exactly the fill of the 6-digit form obtained by doubling each
digit, and the fill opacity is the configured `hoverOpacity`. -/
theorem claim_C9 (c₁ c₂ c₃ : Char)
    (h₁ : isHexDig c₁ = true) (h₂ : isHexDig c₂ = true) (h₃ : isHexDig c₃ = true) :
    handleMouseOverFill (String.mk ['#', c₁, c₂, c₃])
      = handleMouseOverFill (String.mk ['#', c₁, c₁, c₂, c₂, c₃, c₃]) ∧
    (handleMouseOverFill (String.mk ['#', c₁, c₂, c₃])).a = mapSettings.hoverOpacity :=
  ⟨rfl, rfl⟩

/-- C9 witness: the red shorthand. -/
theorem claim_C9_witness :
    handleMouseOverFill (String.mk ['#', 'F', '0', '0'])
      = handleMouseOverFill (String.mk ['#', 'F', 'F', '0', '0', '0', '0']) ∧
    (handleMouseOverFill (String.mk ['#', 'F', '0', '0'])).a = mapSettings.hoverOpacity :=
  claim_C9 'F' '0' '0' (by decide) (by decide) (by decide)

/-- If the filename (the segment after the last slash) of `x` is `y`, then
either `x` is exactly `y`, or `x` ends with `/` followed by `y`. -/
theorem fileNameOf_cases {x y : String} (h : fileNameOf x = y) :
    x = y ∨ jsEndsWith x ("/" ++ y) = true := by
  unfold fileNameOf at h
  have hdata : (x.data.reverse.takeWhile (fun c => c != '/')).reverse = y.data := by
    rw [← h]
  have htake : x.data.reverse.takeWhile (fun c => c != '/') = y.data.reverse := by
    have h1 := congrArg List.reverse hdata
    simpa using h1
  have hsplit : x.data.reverse.takeWhile (fun c => c != '/')
      ++ x.data.reverse.dropWhile (fun c => c != '/') = x.data.reverse :=
    List.takeWhile_append_dropWhile (fun c => c != '/') x.data.reverse
  cases hdrop : x.data.reverse.dropWhile (fun c => c != '/') with
  | nil =>
    left
    apply String.ext
    rw [hdrop] at hsplit
    simp only [List.append_nil] at hsplit
    have h2 : x.data.reverse = y.data.reverse := by rw [← hsplit, htake]
    simpa using congrArg List.reverse h2
  | cons c cs =>
    right
    have hc : (fun c => c != '/') c = false := by
      have hh := List.head?_dropWhile_not (fun c => c != '/') x.data.reverse
      rw [hdrop] at hh
      simpa using hh
    have hc' : c = '/' := by simpa using hc
    subst hc'
    rw [hdrop, htake] at hsplit
    have hx : x.data = cs.reverse ++ '/' :: y.data := by
      have h2 := congrArg List.reverse hsplit
      simp only [List.reverse_append, List.reverse_cons, List.reverse_reverse,
        List.append_assoc, List.singleton_append, List.cons_append,
        List.nil_append] at h2
      exact h2.symm
    rw [jsEndsWith]
    rw [List.isSuffixOf_iff_suffix]
    refine ⟨cs.reverse, ?_⟩
    rw [String.data_append, hx]
    rfl

/-- The match set described by the specification is contained in the match
predicate of `findMapByName`. -/
theorem specMatches_code {t e : String} (h : specNameMatches t e) :
    mapEntryMatches (jsToLower t) e = true := by
  unfold mapEntryMatches
  rcases h with h | h | h
  · simp [h]
  · rcases fileNameOf_cases h with h₂ | h₂
    · simp [h₂]
    · simp [h₂]
  · rcases fileNameOf_cases h with h₂ | h₂
    · simp [h₂]
    · have h₃ : ("/" ++ (jsToLower t ++ ".json")) = ("/" ++ jsToLower t ++ ".json") :=
        (String.append_assoc "/" (jsToLower t) ".json").symm
      rw [h₃] at h₂
      simp [h₂]

/-- C7. Map-name resolution: when the trimmed term matches an entry in the
sense of the specification (case-insensitive equality, or equality with the
filename of the entry with or without a trailing `.json`) and that entry is
the only one the list-match predicate accepts, `resolveMapPath` returns the
entry verbatim; when nothing in the list matches, it returns the trimmed
term with `.json` appended unless that suffix is already present
(case-insensitively, as the source checks it). -/
theorem claim_C7 :
    (∀ (availableMaps : List String) (term entry : String), term ≠ "" →
      entry ∈ availableMaps →
      specNameMatches (jsTrim term) entry →
      (∀ e ∈ availableMaps, mapEntryMatches (jsToLower (jsTrim term)) e = true → e = entry) →
      resolveMapPath availableMaps term = some entry) ∧
    (∀ (availableMaps : List String) (term : String), term ≠ "" →
      (∀ e ∈ availableMaps, mapEntryMatches (jsToLower (jsTrim term)) e = false) →
      resolveMapPath availableMaps term
        = some (if jsEndsWith (jsToLower (jsTrim term)) ".json" then jsTrim term
                else jsTrim term ++ ".json")) := by
  constructor
  · intro maps term entry hne hmem hspec huniq
    have hterm : (term == "") = false := beq_eq_false_iff_ne.mpr hne
    have hcode : mapEntryMatches (jsToLower (jsTrim term)) entry = true := specMatches_code hspec
    simp only [resolveMapPath, findMapByName]
    rw [if_neg (by simp [hterm])]
    have hlen : (maps.length == 0) = false := by
      cases maps with
      | nil => cases hmem
      | cons a l => simp
    rw [if_neg (by simp [hlen])]
    have hsome : (maps.find? (fun mapPath =>
        mapEntryMatches (jsToLower (jsTrim term)) mapPath)).isSome :=
      List.find?_isSome.mpr ⟨entry, hmem, hcode⟩
    cases hfind : maps.find? (fun mapPath =>
        mapEntryMatches (jsToLower (jsTrim term)) mapPath) with
    | none => rw [hfind] at hsome; simp at hsome
    | some e' =>
      have hmem' := List.mem_of_find?_eq_some hfind
      have hp' := List.find?_some hfind
      have he' : e' = entry := huniq e' hmem' hp'
      subst he'
      rfl
  · intro maps term hne hall
    have hterm : (term == "") = false := beq_eq_false_iff_ne.mpr hne
    have hfind : maps.find? (fun mapPath =>
        mapEntryMatches (jsToLower (jsTrim term)) mapPath) = none :=
      List.find?_eq_none.mpr (fun x hx => by simp [hall x hx])
    simp only [resolveMapPath, findMapByName]
    rw [if_neg (by simp [hterm])]
    by_cases hlen : (maps.length == 0) = true
    · rw [if_pos hlen]
    · rw [if_neg hlen]
      rw [hfind]

/-- C7 witness: the example of the specification — resolving `city` against
`maps/city.json`, and the fallback for `nonexistent`. -/
theorem claim_C7_witness :
    resolveMapPath ["maps/city.json"] "city" = some "maps/city.json" ∧
    resolveMapPath ["maps/city.json"] "nonexistent" = some "nonexistent.json" := by
  constructor
  · exact claim_C7.1 ["maps/city.json"] "city" "maps/city.json" (by decide)
      (List.mem_singleton.mpr rfl)
      (Or.inr (Or.inr (by decide)))
      (fun e he _ => List.mem_singleton.mp he)
  · have h := claim_C7.2 ["maps/city.json"] "nonexistent" (by decide)
      (by intro e he; rw [List.mem_singleton.mp he]; decide)
    rw [h]
    decide

end IMap
